import Mathlib

/-!
Verification development for the Helius-Indexer event pipeline.

The definitions below are shallow embeddings of the repository's code:

* `getAccountsFromPayload`, `queueInsertsForEvent`, `handleWebhook`
  embed `supabase/functions/helius-webhook-receiver/index.ts`
  (the event matching gateway);
* `getAllActiveAddresses`, `handleCreateJob`, `handleDeleteJob`
  embed `supabase/functions/manage-jobs/index.ts`
  (the subscription reconciler);
* `claimNext` embeds the SQL function `lock_and_get_queue_item`
  (FOR UPDATE SKIP LOCKED claim primitive; each call is one atomic
  transaction, so a run of concurrent callers is modelled as an
  arbitrary finite sequence of atomic `claimNext` steps, `claimRun`);
* `transformMintActivity`, `transformProgramInteraction`,
  `processQueueItem`, `applyQueueUpdate` embed
  `helius-indexer-worker/src/index.ts` (the worker loop).

JavaScript dynamic values are modelled with `Option`; JS truthiness of
string fields is `truthyStr`; JSON-serialised column values are kept
structurally (a `SqlValue` constructor per serialised shape).
-/

namespace HeliusIndexer

/-- JS truthiness filter for optional string fields: `if (x)` passes
exactly when the field is present and is a non-empty string. -/
def truthyStr : Option String → Option String
  | some s => if s = "" then none else some s
  | none => none

/-- One entry of a Helius payload's `tokenTransfers` array. -/
structure TokenTransfer where
  fromUserAccount : Option String := none
  toUserAccount : Option String := none
  mint : Option String := none
deriving DecidableEq

/-- One entry of a Helius payload's `nativeTransfers` array. -/
structure NativeTransfer where
  fromUserAccount : Option String := none
  toUserAccount : Option String := none
deriving DecidableEq

/-- One entry of `events.nft.nfts`. -/
structure NftItem where
  mint : Option String := none
deriving DecidableEq

/-- The `events.nft` sub-object of a Helius payload. -/
structure NftEvent where
  buyer : Option String := none
  seller : Option String := none
  nfts : List NftItem := []
deriving DecidableEq

/-- One entry of `transaction.message.accountKeys`: either a bare string
or an object carrying a `pubkey` field. -/
inductive AccountKeyEntry
  | str (s : String)
  | obj (pubkey : Option String)
deriving DecidableEq

/-- One entry of the `accountData` array. -/
structure AccountDataEntry where
  account : Option String := none
deriving DecidableEq

/-- The `meta` sub-object; `errIsNull` records whether `meta.err === null`. -/
structure TxMeta where
  errIsNull : Bool := true
  logMessages : Option (List String) := none
deriving DecidableEq

/-- The shape-tolerant view of one inbound Helius event payload: exactly
the fields inspected by the gateway's account extraction and by the
worker's transforms. `instructions` stands for
`transaction.message.instructions` (never inspected, only re-serialised). -/
structure Payload where
  signature : Option String := none
  timestamp : Option Int := none
  slot : Option Int := none
  fee : Option Int := none
  type : Option String := none
  tokenTransfers : Option (List TokenTransfer) := none
  nativeTransfers : Option (List NativeTransfer) := none
  eventsNft : Option NftEvent := none
  accountKeys : Option (List AccountKeyEntry) := none
  instructions : Option (List String) := none
  accountData : Option (List AccountDataEntry) := none
  meta : Option TxMeta := none
  source : Option String := none
  account : Option String := none
deriving DecidableEq

/-- Insertion into a JS `Set` materialised as an insertion-ordered,
duplicate-free list. -/
def addAccount (acc : List String) (s : String) : List String :=
  if s ∈ acc then acc else acc ++ [s]

/-- Add an optional string field to the account set when it is truthy. -/
def addTruthy (acc : List String) (o : Option String) : List String :=
  match truthyStr o with
  | some s => addAccount acc s
  | none => acc

/-- Embedding of `getAccountsFromPayload` (helius-webhook-receiver):
collects the involved-accounts set from token transfers (from/to/mint),
native transfers (from/to), the NFT event (buyer/seller/nft mints),
`accountKeys` (string or `pubkey` object), `accountData` entries, and the
single `account` field when `source === "PROGRAM_RULE"`. -/
def getAccountsFromPayload (p : Payload) : List String :=
  let a1 := (p.tokenTransfers.getD []).foldl
    (fun acc t => addTruthy (addTruthy (addTruthy acc t.fromUserAccount) t.toUserAccount) t.mint) []
  let a2 := (p.nativeTransfers.getD []).foldl
    (fun acc t => addTruthy (addTruthy acc t.fromUserAccount) t.toUserAccount) a1
  let a3 := match p.eventsNft with
    | some e => e.nfts.foldl (fun acc n => addTruthy acc n.mint)
        (addTruthy (addTruthy a2 e.buyer) e.seller)
    | none => a2
  let a4 := (p.accountKeys.getD []).foldl
    (fun acc k => addTruthy acc (match k with
      | AccountKeyEntry.str s => some s
      | AccountKeyEntry.obj pk => pk)) a3
  let a5 := (p.accountData.getD []).foldl (fun acc d => addTruthy acc d.account) a4
  if p.source = some "PROGRAM_RULE" then addTruthy a5 p.account else a5

/-- Job status values of `indexing_jobs.status`. -/
inductive JobStatus
  | active
  | paused
  | error
  | pending
deriving DecidableEq

/-- The `data_category` column: the two built-in categories plus any
other string (the code's `switch` default). -/
inductive DataCategory
  | mintActivity
  | programInteractions
  | other (s : String)
deriving DecidableEq

/-- The `category_params` JSON document: category-specific keys. -/
structure CategoryParams where
  mintAddress : Option String := none
  programId : Option String := none
deriving DecidableEq

/-- An `indexing_jobs` row (the fields the pipeline reads). -/
structure Job where
  id : Nat
  userId : Nat := 0
  credentialId : Option Nat := none
  dataCategory : DataCategory
  categoryParams : CategoryParams := {}
  targetTableName : String := ""
  status : JobStatus
deriving DecidableEq

/-- The category-specific monitored-address parameter, as read by the
identical `switch (data_category)` blocks of the webhook receiver and of
manage-jobs: `mintAddress` for MINT_ACTIVITY, `programId` for
PROGRAM_INTERACTIONS, null for any other category. -/
def monitoredAddressParam (j : Job) : Option String :=
  match j.dataCategory with
  | DataCategory.mintActivity => j.categoryParams.mintAddress
  | DataCategory.programInteractions => j.categoryParams.programId
  | DataCategory.other _ => none

/-- A row inserted into `webhook_queue` by the gateway
(with `status = 'pending'`, `processing_attempts = 0`). -/
structure QueueInsert where
  jobId : Nat
  payload : Payload
deriving DecidableEq

/-- The per-job match test of the gateway's inner loop: the job's
monitored address must be truthy and a member of the event's
involved-accounts set. -/
def matchJob (involved : List String) (p : Payload) (j : Job) : Option QueueInsert :=
  match truthyStr (monitoredAddressParam j) with
  | some a => if a ∈ involved then some ⟨j.id, p⟩ else none
  | none => none

/-- The accumulator step of the gateway's inner job loop: push one queue
insert when the job matches. -/
def collectMatches (involved : List String) (p : Payload)
    (acc : List QueueInsert) (j : Job) : List QueueInsert :=
  match matchJob involved p j with
  | some qi => acc ++ [qi]
  | none => acc

/-- Embedding of the gateway's matching loop for one event: extract the
involved accounts, skip the event if none, otherwise emit one queue
insert per matching active job. -/
def queueInsertsForEvent (jobs : List Job) (p : Payload) : List QueueInsert :=
  let involved := getAccountsFromPayload p
  if involved.isEmpty then []
  else jobs.foldl (collectMatches involved p) []

/-- The gateway's whole-batch insert list: events processed in order. -/
def queueInsertsForBatch (jobs : List Job) (events : List Payload) : List QueueInsert :=
  events.foldl (fun acc p => acc ++ queueInsertsForEvent jobs p) []

/-- The request body as seen by the gateway after `JSON.parse` in its
swallowing try/catch: either the parse threw (malformed JSON, or the
empty string — `payloads` stays `[]`), or it produced an array of
events. -/
inductive GatewayBody
  | malformedOrEmpty
  | events (es : List Payload)
deriving DecidableEq

/-- The observable outcome of one gateway request: HTTP status and the
queue rows actually inserted. -/
structure GatewayResult where
  status : Nat
  queued : List QueueInsert
deriving DecidableEq

/-- Embedding of the helius-webhook-receiver request handler (POST path).
`directory` is the result of the active-jobs fetch (`none` = the fetch
errored, in which case the handler throws and the outer catch returns
500 since the error is not a `SyntaxError`); `insertOk` is whether the
batch insert into `webhook_queue` succeeds (an insert failure is logged
and still answered with 200). Note the handler's JSON-parse catch block
is empty, so a malformed body leaves `payloads = []` and the request
proceeds. -/
def handleWebhook (body : GatewayBody) (directory : Option (List Job))
    (insertOk : Bool) : GatewayResult :=
  match directory with
  | none => ⟨500, []⟩
  | some jobs =>
    let activeJobs := jobs.filter (fun j => decide (j.status = JobStatus.active))
    if activeJobs.isEmpty then ⟨200, []⟩
    else
      match body with
      | GatewayBody.malformedOrEmpty => ⟨200, []⟩
      | GatewayBody.events es =>
        let inserts := queueInsertsForBatch activeJobs es
        if inserts.isEmpty then ⟨200, []⟩
        else if insertOk then ⟨200, inserts⟩ else ⟨200, []⟩

/-! Subscription reconciler (`manage-jobs`). -/

/-- Drop leading whitespace characters. -/
def dropLeadingWs : List Char → List Char
  | [] => []
  | c :: rest => if c.isWhitespace then dropLeadingWs rest else c :: rest

/-- Kernel-computable model of the JS `String.prototype.trim()` used by
manage-jobs: strip whitespace from both ends. -/
def jsTrim (s : String) : String :=
  String.mk ((dropLeadingWs (dropLeadingWs s.toList).reverse).reverse)

/-- List-level dedup with insertion order preserved, as done by
`[...new Set(accountAddresses)]` inside `editPlatformWebhook`. -/
def dedup (l : List String) : List String :=
  l.foldl addAccount []

/-- Embedding of `getAllActiveAddresses(excludeJobId?)`: the trimmed,
deduplicated monitored addresses of all jobs with status `active`,
optionally excluding one job id; a missing / non-string / blank address
parameter only logs a warning and contributes nothing. -/
def getAllActiveAddresses (jobs : List Job) (excludeJobId : Option Nat) : List String :=
  let activeJobs := jobs.filter (fun j =>
    decide (j.status = JobStatus.active) &&
      (match excludeJobId with
       | some e => decide (¬ j.id = e)
       | none => true))
  activeJobs.foldl (fun acc j =>
    match monitoredAddressParam j with
    | some a => if a = "" then acc else if jsTrim a = "" then acc else addAccount acc (jsTrim a)
    | none => acc) []

/-- One external side effect attempted by the job-creation handler, in
order: the Helius webhook edit, the job-row insert, the best-effort
rollback edit. The recorded list is the raw `accountAddresses` argument
passed to `editPlatformWebhook` (which dedups it via `dedup`). -/
inductive CreateEvent
  | editWebhook (addrs : List String)
  | persistJob
  | rollbackEdit (addrs : List String)
deriving DecidableEq

/-- Outcome propagated to the caller of POST /manage-jobs. -/
inductive CreateOutcome
  | created
  | invalidAddress
  | editFailed
  | persistFailed
deriving DecidableEq

/-- Embedding of the POST /manage-jobs creation path from address
validation onward. `jobs` are the rows of `indexing_jobs` at request
time (the new job is not yet among them); `addrParam` is the
category-specific address from the request body; `editOk`, `insertOk`,
`rollbackOk` are the outcomes of the Helius edit, the DB insert, and the
rollback edit. Returns the ordered list of attempted external calls and
the response outcome. A rollback failure is only logged, so the trace
and outcome do not depend on `rollbackOk`; the DB-insert failure is
re-thrown (`persistFailed`, HTTP 500). -/
def handleCreateJob (jobs : List Job) (addrParam : Option String)
    (editOk insertOk rollbackOk : Bool) : List CreateEvent × CreateOutcome :=
  match addrParam with
  | none => ([], CreateOutcome.invalidAddress)
  | some a0 =>
    if a0 = "" then ([], CreateOutcome.invalidAddress)
    else if jsTrim a0 = "" then ([], CreateOutcome.invalidAddress)
    else
      let a := jsTrim a0
      let currentActiveAddresses := getAllActiveAddresses jobs none
      let updatedAddressList := addAccount currentActiveAddresses a
      if editOk then
        if insertOk then
          ([CreateEvent.editWebhook updatedAddressList, CreateEvent.persistJob],
           CreateOutcome.created)
        else
          ([CreateEvent.editWebhook updatedAddressList, CreateEvent.persistJob,
            CreateEvent.rollbackEdit currentActiveAddresses],
           CreateOutcome.persistFailed)
      else
        ([CreateEvent.editWebhook updatedAddressList], CreateOutcome.editFailed)

/-- Result of the DELETE /manage-jobs/{id} reconciliation: the address
list pushed to the webhook when an edit was attempted, the external
subscription's address list afterwards, and whether the job row was
deleted. -/
structure DeleteResult where
  editCall : Option (List String)
  sub : List String
  jobDeleted : Bool
deriving DecidableEq

/-- The deleted job's monitored address as computed by the DELETE
handler: `deletedJobAddress?.trim() || null`. -/
def deletedJobAddress (j : Job) : Option String :=
  match monitoredAddressParam j with
  | some a => if jsTrim a = "" then none else some (jsTrim a)
  | none => none

/-- Embedding of the DELETE /manage-jobs/{id} path after ownership
checks. `jobs` are all `indexing_jobs` rows (still including
`jobToDelete`); `sub` is the external subscription's current address
list; `editOk` is whether the Helius edit succeeds (an edit failure is
logged and deletion proceeds regardless). The webhook is edited only
when the deleted job's address exists and is not needed by any other
active job; the edit's payload dedups the list. -/
def handleDeleteJob (jobs : List Job) (jobToDelete : Job) (sub : List String)
    (editOk : Bool) : DeleteResult :=
  let addr := deletedJobAddress jobToDelete
  let remainingActiveAddresses := getAllActiveAddresses jobs (some jobToDelete.id)
  match addr with
  | some a =>
    if a ∈ remainingActiveAddresses then ⟨none, sub, true⟩
    else if editOk then
      ⟨some remainingActiveAddresses, dedup remainingActiveAddresses, true⟩
    else ⟨some remainingActiveAddresses, sub, true⟩
  | none => ⟨none, sub, true⟩

/-! Durable queue and the claim primitive. -/

/-- Queue item status values of `webhook_queue.status`. -/
inductive QueueStatus
  | pending
  | processing
  | processed
  | failed
deriving DecidableEq

/-- A `webhook_queue` row. -/
structure QueueItemRec where
  id : Nat
  jobId : Nat
  receivedAt : Nat
  payload : Payload
  status : QueueStatus
  processingAttempts : Nat
  lastAttempt : Option Nat := none
  errorMessage : Option String := none
deriving DecidableEq

/-- The WHERE clause of `lock_and_get_queue_item`:
`status = 'pending' AND processing_attempts < max_attempts`. -/
def eligibleItem (maxAttempts : Nat) (it : QueueItemRec) : Bool :=
  decide (it.status = QueueStatus.pending) && decide (it.processingAttempts < maxAttempts)

/-- `ORDER BY received_at ASC LIMIT 1`: an item of minimal
`received_at` (the first such in row order; SQL leaves ties
unspecified). -/
def selectOldest : List QueueItemRec → Option QueueItemRec
  | [] => none
  | it :: rest =>
    match selectOldest rest with
    | none => some it
    | some b => if b.receivedAt < it.receivedAt then some b else some it

/-- Embedding of the SQL function `lock_and_get_queue_item(max_attempts)`:
atomically select the oldest pending row with
`processing_attempts < max_attempts`, set it to `processing`, increment
its attempt counter, stamp `last_attempt = NOW()` (modelled by `now`),
and return the updated row together with the updated queue; when no
eligible row exists, return nothing and leave the queue unchanged. -/
def claimNext (maxAttempts now : Nat) (q : List QueueItemRec) :
    Option QueueItemRec × List QueueItemRec :=
  match selectOldest (q.filter (eligibleItem maxAttempts)) with
  | none => (none, q)
  | some it =>
    let upd : QueueItemRec :=
      { it with
          status := QueueStatus.processing
          processingAttempts := it.processingAttempts + 1
          lastAttempt := some now }
    (some upd, q.map (fun x => if x.id = it.id then upd else x))

/-- A run of `n` claim calls against the queue. Each call to
`lock_and_get_queue_item` is a single transaction whose row selection
uses FOR UPDATE SKIP LOCKED, so any number of concurrent callers
serialise into some such sequence; the first component collects the
items handed out, the second is the final queue state. -/
def claimRun (maxAttempts : Nat) : Nat → List QueueItemRec → List QueueItemRec × List QueueItemRec
  | 0, q => ([], q)
  | Nat.succ n, q =>
    match claimNext maxAttempts n q with
    | (none, q1) => claimRun maxAttempts n q1
    | (some r, q1) =>
      let res := claimRun maxAttempts n q1
      (r :: res.1, res.2)

/-! Worker loop (`helius-indexer-worker/src/index.ts`). -/

/-- A `db_credentials` row (only its identity matters to the claims). -/
structure Credential where
  id : Nat
deriving DecidableEq

/-- A column value of the destination-table insert. JSON-serialised
values (`JSON.stringify(...)`) are kept structurally; `feeSol` carries
the lamport amount whose division by 1e9 the code stores. -/
inductive SqlValue
  | text (v : String)
  | intVal (v : Int)
  | boolVal (v : Bool)
  | textArray (v : List String)
  | timestampVal (epochSeconds : Int)
  | feeSol (lamports : Int)
  | jsonTokenTransfers (v : List TokenTransfer)
  | jsonNftEvent (v : NftEvent)
  | jsonInstructions (v : List String)
  | jsonPayload (v : Payload)
  | nullValue
deriving DecidableEq

/-- A destination row: parallel column and value lists. -/
structure SqlRow where
  columns : List String
  values : List SqlValue
deriving DecidableEq

/-- The worker's fallback involved-accounts source:
`transaction.message.accountKeys` mapped through the string/pubkey
disambiguation and `.filter(Boolean)`. -/
def workerAccountKeysList (p : Payload) : List String :=
  match p.accountKeys with
  | some ks =>
    if 0 < ks.length then
      ks.filterMap (fun k => truthyStr (match k with
        | AccountKeyEntry.str s => some s
        | AccountKeyEntry.obj pk => pk))
    else []
  | none => []

/-- The worker's involved-accounts list: `accountData` entries when that
array is non-empty, else the `accountKeys` fallback, else empty. -/
def workerInvolvedAccounts (p : Payload) : List String :=
  match p.accountData with
  | some ads =>
    if 0 < ads.length then ads.filterMap (fun ad => truthyStr ad.account)
    else workerAccountKeysList p
  | none => workerAccountKeysList p

/-- Embedding of `transformMintActivity(payload, jobParams)`: builds the
MINT_ACTIVITY destination row, returning nothing when the essential
fields (signature, block time, monitored mint) are missing or when the
monitored mint does not actually appear in the involved accounts, the
token transfers, or the NFT event mints. JS truthiness of the numeric
`timestamp` and `fee` fields treats 0 as absent. -/
def transformMintActivity (p : Payload) (jobParams : CategoryParams) : Option SqlRow :=
  let signature := truthyStr p.signature
  let blockTime : Option Int :=
    match p.timestamp with
    | some t => if t = 0 then none else some t
    | none => none
  let fee : Option Int :=
    match p.fee with
    | some f => if f = 0 then none else some f
    | none => none
  let success : Bool :=
    match p.meta with
    | some m => m.errIsNull
    | none => false
  let txType : String := p.type.getD "UNKNOWN"
  let monitoredMint := truthyStr jobParams.mintAddress
  let involvedAccounts := workerInvolvedAccounts p
  let logMessages : Option (List String) :=
    match p.meta with
    | some m => m.logMessages
    | none => none
  match signature, blockTime, monitoredMint with
  | some sig, some bt, some mint =>
    let isMintInvolved :=
      mint ∈ involvedAccounts
        ∨ (p.tokenTransfers.getD []).any (fun t => decide (t.mint = some mint))
        ∨ ((p.eventsNft.map NftEvent.nfts).getD []).any (fun n => decide (n.mint = some mint))
    if isMintInvolved then
      some
        { columns :=
            ["tx_signature", "block_time", "slot", "monitored_mint_address",
             "tx_type", "fee_sol", "success", "involved_accounts",
             "token_transfers", "nft_events", "instructions", "log_messages",
             "raw_payload"]
          values :=
            [SqlValue.text sig, SqlValue.timestampVal bt,
             (match p.slot with | some s => SqlValue.intVal s | none => SqlValue.nullValue),
             SqlValue.text mint, SqlValue.text txType,
             (match fee with | some f => SqlValue.feeSol f | none => SqlValue.nullValue),
             SqlValue.boolVal success, SqlValue.textArray involvedAccounts,
             (match p.tokenTransfers with
              | some ts => SqlValue.jsonTokenTransfers ts
              | none => SqlValue.nullValue),
             (match p.eventsNft with
              | some e => SqlValue.jsonNftEvent e
              | none => SqlValue.nullValue),
             (match p.instructions with
              | some ins => SqlValue.jsonInstructions ins
              | none => SqlValue.nullValue),
             (match logMessages with
              | some ls => SqlValue.textArray ls
              | none => SqlValue.nullValue),
             SqlValue.jsonPayload p] }
    else none
  | _, _, _ => none

/-- Embedding of `transformProgramInteraction`: a stub in the source
that logs a warning and always returns null. -/
def transformProgramInteraction (p : Payload) (jobParams : CategoryParams) : Option SqlRow :=
  none

/-- Whether `pat` occurs as a prefix of `l` (character lists). -/
def matchesAt : List Char → List Char → Bool
  | [], _ => true
  | _ :: _, [] => false
  | a :: pa, b :: sb => decide (a = b) && matchesAt pa sb

/-- Whether `pat` occurs as a contiguous run anywhere in `l`. -/
def hasSub (pat : List Char) : List Char → Bool
  | [] => matchesAt pat []
  | c :: rest => matchesAt pat (c :: rest) || hasSub pat rest

/-- Substring test modelling the JS `String.prototype.includes`. -/
def includesSubstr (s pat : String) : Bool :=
  hasSub pat.toList s.toList

/-- The worker's destination-schema error classifier: the failure
message mentions the missing relation, or the words `column` or
`type`. -/
def isTableError (targetTable msg : String) : Bool :=
  includesSubstr msg ("relation \"public." ++ targetTable ++ "\" does not exist")
    || includesSubstr msg "column"
    || includesSubstr msg "type"

/-- The worker's target-table name guard, regex `^[a-zA-Z0-9_]+$`. -/
def validTableName (t : String) : Bool :=
  decide (¬ t = "") && t.toList.all (fun c => c.isAlphanum || c = '_')

/-- The outcomes of the external calls `processQueueItem` makes, in
order: the `indexing_jobs` fetch for the item's job id, the
`db_credentials` fetch, pool creation/validation (including password
decryption), and the destination INSERT (a failure carries its error
message). -/
structure WorkerEnv where
  jobFetch : Except String (List Job)
  credRow : Option Credential := none
  poolConnect : Except String Unit := Except.ok ()
  insertError : Option String := none

/-- The observable outcome of processing one claimed queue item:
the status and error text written back to `webhook_queue`, the INSERT
actually executed against the destination table (table name and row),
and whether `indexing_jobs.status` was set to `'error'`. -/
structure WorkerOutcome where
  updateStatus : QueueStatus
  errorMessage : Option String
  insertExecuted : Option (String × SqlRow)
  jobSetError : Bool
deriving DecidableEq

/-- A failure inside processing after the job row was resolved: the item
is marked failed and the job is sticky-flagged `error` exactly when the
message classifies as a destination-schema error. -/
def workerFail (job : Job) (msg : String) : WorkerOutcome :=
  ⟨QueueStatus.failed, some msg, none, isTableError job.targetTableName msg⟩

/-- Embedding of `processQueueItem(item)`: resolve the job (absent job
or inactive job resolves the item as processed), resolve the credential
(a missing credential marks the item failed and sticky-flags the job),
create/validate the pool, transform by category (an unknown category
throws; a null transform resolves the item as processed with no write),
validate the table name, and execute the idempotent INSERT. The
`finally` block's queue update is `applyQueueUpdate` below. -/
def processQueueItem (env : WorkerEnv) (item : QueueItemRec) : WorkerOutcome :=
  match env.jobFetch with
  | Except.error m =>
    ⟨QueueStatus.failed, some ("DB error fetching job details: " ++ m), none, false⟩
  | Except.ok [] =>
    ⟨QueueStatus.processed,
     some ("Job details query returned no rows for job " ++ toString item.jobId
       ++ " (perhaps deleted?)."),
     none, false⟩
  | Except.ok (_ :: _ :: _) =>
    ⟨QueueStatus.failed,
     some ("Inconsistent state: Multiple jobs found for ID " ++ toString item.jobId ++ "."),
     none, false⟩
  | Except.ok [job] =>
    if ¬ job.status = JobStatus.active then
      ⟨QueueStatus.processed, some "Job not active", none, false⟩
    else
      match job.credentialId with
      | none =>
        workerFail job
          ("Job " ++ toString item.jobId ++ " is missing required credential_id.")
      | some cid =>
        match env.credRow with
        | none =>
          ⟨QueueStatus.failed,
           some ("Credential details not found for credential ID " ++ toString cid
             ++ " linked to job " ++ toString item.jobId
             ++ " (perhaps deleted?): Not found / PGRST116"),
           none, true⟩
        | some _ =>
          match env.poolConnect with
          | Except.error m => workerFail job m
          | Except.ok _ =>
            let transformed : Except String (Option SqlRow) :=
              match job.dataCategory with
              | DataCategory.mintActivity =>
                Except.ok (transformMintActivity item.payload job.categoryParams)
              | DataCategory.programInteractions =>
                Except.ok (transformProgramInteraction item.payload job.categoryParams)
              | DataCategory.other s =>
                Except.error ("Unsupported data_category: " ++ s)
            match transformed with
            | Except.error m => workerFail job m
            | Except.ok none =>
              ⟨QueueStatus.processed,
               some "Payload transformation failed or skipped for category.",
               none, false⟩
            | Except.ok (some row) =>
              if ¬ validTableName job.targetTableName then
                workerFail job
                  ("Invalid target table name specified: " ++ job.targetTableName)
              else
                match env.insertError with
                | some m => workerFail job m
                | none =>
                  ⟨QueueStatus.processed, none, some (job.targetTableName, row), false⟩

/-- The worker's `finally` block: write the final status, error text and
last-attempt time back to the claimed item's `webhook_queue` row. -/
def applyQueueUpdate (q : List QueueItemRec) (itemId : Nat) (out : WorkerOutcome)
    (now : Nat) : List QueueItemRec :=
  q.map (fun it =>
    if it.id = itemId then
      { it with
          status := out.updateStatus
          errorMessage := out.errorMessage
          lastAttempt := some now }
    else it)

/-! Concrete fixtures used by witnesses and counterexamples. -/

/-- An active MINT_ACTIVITY job monitoring mint `"M1"`. -/
def exJobM1 : Job :=
  { id := 1, credentialId := some 1, dataCategory := DataCategory.mintActivity,
    categoryParams := { mintAddress := some "M1" },
    targetTableName := "helius_mint_activity", status := JobStatus.active }

/-- An active MINT_ACTIVITY job monitoring mint `"M2"`. -/
def exJobM2 : Job :=
  { id := 2, credentialId := some 1, dataCategory := DataCategory.mintActivity,
    categoryParams := { mintAddress := some "M2" },
    targetTableName := "helius_mint_activity", status := JobStatus.active }

/-- An active MINT_ACTIVITY job monitoring mint `"M3"`. -/
def exJobM3a : Job :=
  { id := 31, credentialId := some 1, dataCategory := DataCategory.mintActivity,
    categoryParams := { mintAddress := some "M3" },
    targetTableName := "helius_mint_activity", status := JobStatus.active }

/-- A second active MINT_ACTIVITY job also monitoring mint `"M3"`. -/
def exJobM3b : Job :=
  { id := 32, credentialId := some 1, dataCategory := DataCategory.mintActivity,
    categoryParams := { mintAddress := some "M3" },
    targetTableName := "helius_mint_activity", status := JobStatus.active }

/-- A paused variant of `exJobM1`. -/
def exPausedJob : Job :=
  { exJobM1 with status := JobStatus.paused }

/-- An active PROGRAM_INTERACTIONS job monitoring program `"P1"`. -/
def exPIJob : Job :=
  { id := 3, credentialId := some 1, dataCategory := DataCategory.programInteractions,
    categoryParams := { programId := some "P1" },
    targetTableName := "helius_program_activity", status := JobStatus.active }

/-- An event whose `tokenTransfers` contain mint `"M1"`. -/
def exEventM1 : Payload :=
  { tokenTransfers := some [{ mint := some "M1" }] }

/-- A pending queue item with no attempts yet. -/
def exItem : QueueItemRec :=
  { id := 1, jobId := 1, receivedAt := 0, payload := exEventM1,
    status := QueueStatus.pending, processingAttempts := 0 }

/-- `exItem` as returned by a claim call at time 100. -/
def exClaimed : QueueItemRec :=
  { exItem with
      status := QueueStatus.processing
      processingAttempts := 1
      lastAttempt := some 100 }

/-- A worker environment whose pool creation fails with a connection
timeout (a generic, non-schema error). -/
def exConnEnv : WorkerEnv :=
  { jobFetch := Except.ok [exJobM1], credRow := some ⟨1⟩,
    poolConnect := Except.error "Failed to connect to user DB: connection timed out" }

/-- A worker environment whose job fetch returns no rows
(the referenced job was deleted). -/
def exMissingJobEnv : WorkerEnv :=
  { jobFetch := Except.ok [] }

/-- A worker environment that resolves a paused job. -/
def exPausedEnv : WorkerEnv :=
  { jobFetch := Except.ok [exPausedJob] }

/-- A worker environment that resolves an active PROGRAM_INTERACTIONS
job with a working credential and pool. -/
def exPIEnv : WorkerEnv :=
  { jobFetch := Except.ok [exPIJob], credRow := some ⟨1⟩ }

/-! Lemmas about the claim primitive. -/

theorem selectOldest_eq_none {l : List QueueItemRec} :
    selectOldest l = none ↔ l = [] := by
  cases l with
  | nil => simp [selectOldest]
  | cons it rest =>
    simp only [selectOldest]
    cases h : selectOldest rest <;> simp [h] <;> split <;> simp

theorem selectOldest_mem : ∀ {l : List QueueItemRec} {b : QueueItemRec},
    selectOldest l = some b → b ∈ l := by
  intro l
  induction l with
  | nil => intro b h; cases h
  | cons it rest ih =>
    intro b h
    simp only [selectOldest] at h
    cases hr : selectOldest rest with
    | none => rw [hr] at h; injection h with h; subst h; exact List.mem_cons_self _ _
    | some b0 =>
      rw [hr] at h
      dsimp only at h
      by_cases hlt : b0.receivedAt < it.receivedAt
      · rw [if_pos hlt] at h; injection h with h; subst h
        exact List.mem_cons_of_mem _ (ih hr)
      · rw [if_neg hlt] at h; injection h with h; subst h
        exact List.mem_cons_self _ _

theorem selectOldest_min : ∀ {l : List QueueItemRec} {b : QueueItemRec},
    selectOldest l = some b → ∀ x ∈ l, b.receivedAt ≤ x.receivedAt := by
  intro l
  induction l with
  | nil => intro b h; cases h
  | cons it rest ih =>
    intro b h x hx
    simp only [selectOldest] at h
    cases hr : selectOldest rest with
    | none =>
      rw [hr] at h; injection h with h; subst h
      have : rest = [] := selectOldest_eq_none.mp hr
      subst this
      rcases List.mem_cons.mp hx with h1 | h1
      · subst h1; exact Nat.le_refl _
      · cases h1
    | some b0 =>
      rw [hr] at h
      dsimp only at h
      by_cases hlt : b0.receivedAt < it.receivedAt
      · rw [if_pos hlt] at h; injection h with h; subst h
        rcases List.mem_cons.mp hx with h1 | h1
        · subst h1; exact Nat.le_of_lt hlt
        · exact ih hr x h1
      · rw [if_neg hlt] at h; injection h with h; subst h
        rcases List.mem_cons.mp hx with h1 | h1
        · subst h1; exact Nat.le_refl _
        · exact Nat.le_trans (Nat.le_of_not_lt hlt) (ih hr x h1)

theorem claimNext_none_spec {m now : Nat} {q q' : List QueueItemRec}
    (h : claimNext m now q = (none, q')) :
    q' = q ∧ ∀ it ∈ q, ¬(it.status = QueueStatus.pending ∧ it.processingAttempts < m) := by
  unfold claimNext at h
  cases hs : selectOldest (q.filter (eligibleItem m)) with
  | none =>
    rw [hs] at h
    injection h with h1 h2
    constructor
    · exact h2.symm
    · have hnil : q.filter (eligibleItem m) = [] := selectOldest_eq_none.mp hs
      intro it hit hcontra
      have : eligibleItem m it = true := by
        unfold eligibleItem
        simp [hcontra.1, hcontra.2]
      have : it ∈ q.filter (eligibleItem m) := List.mem_filter.mpr ⟨hit, this⟩
      rw [hnil] at this
      cases this
  | some it =>
    rw [hs] at h
    injection h with h1 h2
    cases h1

theorem claimNext_some_spec {m now : Nat} {q q' : List QueueItemRec} {r : QueueItemRec}
    (h : claimNext m now q = (some r, q')) :
    ∃ it, it ∈ q ∧ it.status = QueueStatus.pending ∧ it.processingAttempts < m ∧
      r = { it with
              status := QueueStatus.processing
              processingAttempts := it.processingAttempts + 1
              lastAttempt := some now } ∧
      q' = q.map (fun x => if x.id = it.id then r else x) ∧
      ∀ it2 ∈ q, it2.status = QueueStatus.pending → it2.processingAttempts < m →
        it.receivedAt ≤ it2.receivedAt := by
  unfold claimNext at h
  cases hs : selectOldest (q.filter (eligibleItem m)) with
  | none => rw [hs] at h; injection h with h1 h2; cases h1
  | some it =>
    rw [hs] at h
    injection h with h1 h2
    injection h1 with h1
    have hmemf := selectOldest_mem hs
    obtain ⟨hitq, helig⟩ := List.mem_filter.mp hmemf
    have helig' : it.status = QueueStatus.pending ∧ it.processingAttempts < m := by
      unfold eligibleItem at helig
      simpa using helig
    refine ⟨it, hitq, helig'.1, helig'.2, h1.symm, ?_, ?_⟩
    · rw [← h2, ← h1]
    · intro it2 hit2 hst hatt
      apply selectOldest_min hs
      refine List.mem_filter.mpr ⟨hit2, ?_⟩
      unfold eligibleItem
      simp [hst, hatt]

theorem claimNext_post_blocked {m now : Nat} {q q1 : List QueueItemRec} {r : QueueItemRec}
    (h : claimNext m now q = (some r, q1)) :
    ∀ x ∈ q1, x.id = r.id → ¬ x.status = QueueStatus.pending := by
  rcases claimNext_some_spec h with ⟨it, -, -, -, hr, hq1, -⟩
  have hrid : r.id = it.id := by rw [hr]
  intro x hx hxi
  rw [hq1] at hx
  rcases List.mem_map.mp hx with ⟨y, hy, hxy⟩
  by_cases hid : y.id = it.id
  · rw [if_pos hid] at hxy
    subst hxy
    rw [hr]
    simp
  · rw [if_neg hid] at hxy
    subst hxy
    exact absurd (hxi.trans hrid) hid

theorem claimNext_preserves_blocked {m now : Nat} {q : List QueueItemRec} {i : Nat}
    (h : ∀ x ∈ q, x.id = i → ¬ x.status = QueueStatus.pending) :
    ∀ x ∈ (claimNext m now q).2, x.id = i → ¬ x.status = QueueStatus.pending := by
  cases hc : claimNext m now q with
  | mk o q' =>
    cases o with
    | none =>
      have hq : q' = q := (claimNext_none_spec hc).1
      subst hq
      simpa using h
    | some r =>
      rcases claimNext_some_spec hc with ⟨it, -, -, -, hr, hq', -⟩
      dsimp only
      rw [hq']
      intro x hx hxi
      rcases List.mem_map.mp hx with ⟨y, hy, hxy⟩
      by_cases hid : y.id = it.id
      · rw [if_pos hid] at hxy
        subst hxy
        rw [hr]
        simp
      · rw [if_neg hid] at hxy
        subst hxy
        exact h y hy hxi

theorem claimNext_preserves_saturated {m now : Nat} {q : List QueueItemRec} {i : Nat}
    (h : ∀ x ∈ q, x.id = i → m ≤ x.processingAttempts) :
    ∀ x ∈ (claimNext m now q).2, x.id = i → m ≤ x.processingAttempts := by
  cases hc : claimNext m now q with
  | mk o q' =>
    cases o with
    | none =>
      have hq : q' = q := (claimNext_none_spec hc).1
      subst hq
      simpa using h
    | some r =>
      rcases claimNext_some_spec hc with ⟨it, hitq, -, -, hr, hq', -⟩
      dsimp only
      rw [hq']
      intro x hx hxi
      rcases List.mem_map.mp hx with ⟨y, hy, hxy⟩
      by_cases hid : y.id = it.id
      · rw [if_pos hid] at hxy
        subst hxy
        have : m ≤ it.processingAttempts := h it hitq (by rw [← hxi, hr])
        rw [hr]
        exact Nat.le_succ_of_le this
      · rw [if_neg hid] at hxy
        subst hxy
        exact h y hy hxi

theorem claimRun_succ (m n : Nat) (q : List QueueItemRec) :
    claimRun m (n + 1) q =
      match claimNext m n q with
      | (none, q1) => claimRun m n q1
      | (some r, q1) =>
        let res := claimRun m n q1
        (r :: res.1, res.2) := rfl

theorem not_mem_claimRun_of_blocked (m : Nat) :
    ∀ (n : Nat) (q : List QueueItemRec) (i : Nat),
      (∀ x ∈ q, x.id = i → ¬ x.status = QueueStatus.pending) →
      i ∉ ((claimRun m n q).1.map QueueItemRec.id) := by
  intro n
  induction n with
  | zero => intro q i h; simp [claimRun]
  | succ n ih =>
    intro q i h
    rw [claimRun_succ]
    cases hc : claimNext m n q with
    | mk o q1 =>
      cases o with
      | none =>
        dsimp only
        have hq : q1 = q := (claimNext_none_spec hc).1
        rw [hq]
        exact ih q i h
      | some r =>
        dsimp only
        intro hmem
        rw [List.map_cons] at hmem
        rcases List.mem_cons.mp hmem with h1 | h1
        · rcases claimNext_some_spec hc with ⟨it, hitq, hp, -, hr, -, -⟩
          have hrid : r.id = it.id := by rw [hr]
          exact h it hitq (by rw [h1, hrid]) hp
        · have hblocked : ∀ x ∈ q1, x.id = i → ¬ x.status = QueueStatus.pending := by
            have := @claimNext_preserves_blocked m n q i h
            rw [hc] at this
            exact this
          exact ih q1 i hblocked h1

theorem not_mem_claimRun_of_saturated (m : Nat) :
    ∀ (n : Nat) (q : List QueueItemRec) (i : Nat),
      (∀ x ∈ q, x.id = i → m ≤ x.processingAttempts) →
      i ∉ ((claimRun m n q).1.map QueueItemRec.id) := by
  intro n
  induction n with
  | zero => intro q i h; simp [claimRun]
  | succ n ih =>
    intro q i h
    rw [claimRun_succ]
    cases hc : claimNext m n q with
    | mk o q1 =>
      cases o with
      | none =>
        dsimp only
        have hq : q1 = q := (claimNext_none_spec hc).1
        rw [hq]
        exact ih q i h
      | some r =>
        dsimp only
        intro hmem
        rw [List.map_cons] at hmem
        rcases List.mem_cons.mp hmem with h1 | h1
        · rcases claimNext_some_spec hc with ⟨it, hitq, -, hlt, hr, -, -⟩
          have hrid : r.id = it.id := by rw [hr]
          have : m ≤ it.processingAttempts := h it hitq (by rw [h1, hrid])
          exact absurd hlt (Nat.not_lt.mpr this)
        · have hsat : ∀ x ∈ q1, x.id = i → m ≤ x.processingAttempts := by
            have := @claimNext_preserves_saturated m n q i h
            rw [hc] at this
            exact this
          exact ih q1 i hsat h1

/-- C1: mutual exclusion of claiming. Each call to
`lock_and_get_queue_item` is a single atomic transaction (row selection
with FOR UPDATE SKIP LOCKED), so any race of N concurrent callers
against one queue serialises into some finite sequence of atomic
`claimNext` steps; over every such sequence, the items handed out have
pairwise distinct ids — no queue item is ever returned to more than one
caller. -/
theorem C1_claiming_mutually_exclusive (m : Nat) :
    ∀ (n : Nat) (q : List QueueItemRec),
      (((claimRun m n q).1).map QueueItemRec.id).Nodup := by
  intro n
  induction n with
  | zero => intro q; simp [claimRun]
  | succ n ih =>
    intro q
    rw [claimRun_succ]
    cases hc : claimNext m n q with
    | mk o q1 =>
      cases o with
      | none => dsimp only; exact ih q1
      | some r =>
        dsimp only
        rw [List.map_cons, List.nodup_cons]
        exact ⟨not_mem_claimRun_of_blocked m n q1 r.id (claimNext_post_blocked hc), ih q1⟩

/-- C2: postcondition of the claim primitive. When
`lock_and_get_queue_item(maxAttempts)` returns a row, that row came from
a pending item with attempt counter strictly below `maxAttempts` and of
minimal `received_at` among all such items; the returned record has
status processing, the attempt counter incremented by one and the
last-attempt time stamped, and the queue is updated accordingly. When no
eligible item exists it returns empty and leaves the queue unchanged.
Moreover an item whose attempt counter has reached `maxAttempts` is
never returned by any subsequent sequence of claim calls. -/
theorem C2_claimNext_postcondition (m now : Nat) (q : List QueueItemRec) :
    (∀ r q', claimNext m now q = (some r, q') →
      ∃ it, it ∈ q ∧ it.status = QueueStatus.pending ∧ it.processingAttempts < m ∧
        r = { it with
                status := QueueStatus.processing
                processingAttempts := it.processingAttempts + 1
                lastAttempt := some now } ∧
        q' = q.map (fun x => if x.id = it.id then r else x) ∧
        ∀ it2 ∈ q, it2.status = QueueStatus.pending → it2.processingAttempts < m →
          it.receivedAt ≤ it2.receivedAt) ∧
    (∀ q', claimNext m now q = (none, q') →
      q' = q ∧ ∀ it ∈ q, ¬(it.status = QueueStatus.pending ∧ it.processingAttempts < m)) ∧
    (∀ i, (∀ x ∈ q, x.id = i → m ≤ x.processingAttempts) →
      ∀ n, i ∉ ((claimRun m n q).1.map QueueItemRec.id)) :=
  ⟨fun _ _ h => claimNext_some_spec h,
   fun _ h => claimNext_none_spec h,
   fun i hi n => not_mem_claimRun_of_saturated m n q i hi⟩

/-- Witness for C2 at a concrete one-item queue: the pending item with
zero attempts is returned with status processing, attempt counter 1 and
last-attempt time 100, and it is the oldest eligible item. -/
theorem C2_claimNext_postcondition_witness :
    ∃ it, it ∈ [exItem] ∧ it.status = QueueStatus.pending ∧ it.processingAttempts < 3 ∧
      exClaimed = { it with
          status := QueueStatus.processing
          processingAttempts := it.processingAttempts + 1
          lastAttempt := some 100 } ∧
      [exClaimed] = [exItem].map (fun x => if x.id = it.id then exClaimed else x) ∧
      ∀ it2 ∈ [exItem], it2.status = QueueStatus.pending → it2.processingAttempts < 3 →
        it.receivedAt ≤ it2.receivedAt :=
  (C2_claimNext_postcondition 3 100 [exItem]).1 exClaimed [exClaimed] (by decide)

/-- When the worker writes back a non-pending final status to the
claimed row, every row carrying that item id is thereafter non-pending. -/
theorem applyQueueUpdate_blocked (q : List QueueItemRec) (itemId : Nat)
    (out : WorkerOutcome) (now : Nat)
    (h : ¬ out.updateStatus = QueueStatus.pending) :
    ∀ x ∈ applyQueueUpdate q itemId out now, x.id = itemId →
      ¬ x.status = QueueStatus.pending := by
  intro x hx hxi
  unfold applyQueueUpdate at hx
  rcases List.mem_map.mp hx with ⟨y, hy, hxy⟩
  by_cases hid : y.id = itemId
  · rw [if_pos hid] at hxy
    subst hxy
    exact h
  · rw [if_neg hid] at hxy
    subst hxy
    exact absurd hxi hid

/-- A queue item written back with a non-pending status (processed or
failed) is never returned by any later sequence of claim calls. -/
theorem applyQueueUpdate_never_reclaimed (q : List QueueItemRec)
    (itemId now m n : Nat) (out : WorkerOutcome)
    (h : ¬ out.updateStatus = QueueStatus.pending) :
    itemId ∉ ((claimRun m n (applyQueueUpdate q itemId out now)).1.map QueueItemRec.id) :=
  not_mem_claimRun_of_blocked m n _ itemId (applyQueueUpdate_blocked q itemId out now h)

/-- Counterexample to C1-adjacent claim C3 as stated: a pending item is
claimed, its processing fails with a generic connection timeout, the
worker writes status failed back; although its attempt counter (1) is
still below maxAttempts (3), a later claim call returns nothing — the
claim primitive selects only `status = 'pending'` rows, so the item is
not eligible for reclaim, contradicting the claimed retry eligibility.
(The Job-untouched half of the claim does hold: `jobSetError = false`.) -/
theorem C3_counterexample :
    claimNext 3 100 [exItem] = (some exClaimed, [exClaimed]) ∧
    (processQueueItem exConnEnv exClaimed).updateStatus = QueueStatus.failed ∧
    (processQueueItem exConnEnv exClaimed).jobSetError = false ∧
    (applyQueueUpdate [exClaimed] exItem.id (processQueueItem exConnEnv exClaimed) 200).all
      (fun x => decide (x.processingAttempts < 3)) = true ∧
    claimNext 3 300
        (applyQueueUpdate [exClaimed] exItem.id (processQueueItem exConnEnv exClaimed) 200) =
      (none,
       applyQueueUpdate [exClaimed] exItem.id (processQueueItem exConnEnv exClaimed) 200) := by
  decide

/-- C3 amended: for every claimed queue item whose processing fails with
a generic (non-schema) error such as a connection timeout, the worker
leaves the referenced Job untouched and writes nothing to the
destination, but marks the item failed — and since the claim primitive
selects only pending rows, the failed item is never returned by any
later claim call, regardless of its attempt counter. -/
theorem C3_transient_failure_dead_letters_item
    (job : Job) (cred : Credential) (item : QueueItemRec) (msg : String) (cid : Nat)
    (hact : job.status = JobStatus.active)
    (hcid : job.credentialId = some cid)
    (hmsg : isTableError job.targetTableName msg = false) :
    (processQueueItem
        { jobFetch := Except.ok [job], credRow := some cred,
          poolConnect := Except.error msg } item).updateStatus = QueueStatus.failed ∧
    (processQueueItem
        { jobFetch := Except.ok [job], credRow := some cred,
          poolConnect := Except.error msg } item).jobSetError = false ∧
    (processQueueItem
        { jobFetch := Except.ok [job], credRow := some cred,
          poolConnect := Except.error msg } item).insertExecuted = none ∧
    ∀ (q : List QueueItemRec) (t m n : Nat),
      item.id ∉
        ((claimRun m n
            (applyQueueUpdate q item.id
              (processQueueItem
                { jobFetch := Except.ok [job], credRow := some cred,
                  poolConnect := Except.error msg } item) t)).1.map QueueItemRec.id) := by
  have hout :
      processQueueItem
        { jobFetch := Except.ok [job], credRow := some cred,
          poolConnect := Except.error msg } item = workerFail job msg := by
    unfold processQueueItem
    simp [hact, hcid]
  rw [hout]
  refine ⟨rfl, ?_, rfl, ?_⟩
  · unfold workerFail
    simpa using hmsg
  · intro q t m n
    exact applyQueueUpdate_never_reclaimed q item.id t m n (workerFail job msg) (by simp [workerFail])

/-- Witness for the amended C3 at a concrete connection-timeout failure. -/
theorem C3_transient_failure_dead_letters_item_witness :
    (processQueueItem exConnEnv exClaimed).updateStatus = QueueStatus.failed ∧
    (processQueueItem exConnEnv exClaimed).jobSetError = false ∧
    (processQueueItem exConnEnv exClaimed).insertExecuted = none ∧
    exClaimed.id ∉
      ((claimRun 3 5
          (applyQueueUpdate [exClaimed] exClaimed.id
            (processQueueItem exConnEnv exClaimed) 200)).1.map QueueItemRec.id) := by
  have h := C3_transient_failure_dead_letters_item exJobM1 ⟨1⟩ exClaimed
    "Failed to connect to user DB: connection timed out" 1 (by decide) (by decide) (by decide)
  exact ⟨h.1, h.2.1, h.2.2.1, h.2.2.2 [exClaimed] 200 3 5⟩

/-! Lemmas about the matching gateway. -/

theorem foldl_collectMatches_eq (involved : List String) (p : Payload) (jobs : List Job) :
    ∀ acc : List QueueInsert,
      jobs.foldl (collectMatches involved p) acc
        = acc ++ jobs.filterMap (matchJob involved p) := by
  induction jobs with
  | nil => intro acc; simp
  | cons j0 rest ih =>
    intro acc
    rw [List.foldl_cons]
    cases h : matchJob involved p j0 <;>
      simp [collectMatches, h, ih, List.filterMap_cons]

theorem queueInsertsForEvent_eq (jobs : List Job) (p : Payload) :
    queueInsertsForEvent jobs p =
      jobs.filterMap (matchJob (getAccountsFromPayload p) p) := by
  simp only [queueInsertsForEvent]
  by_cases h : (getAccountsFromPayload p).isEmpty
  · rw [if_pos h]
    have hnil : getAccountsFromPayload p = [] := List.isEmpty_iff.mp h
    symm
    rw [List.filterMap_eq_nil_iff]
    intro j _
    unfold matchJob
    rw [hnil]
    cases truthyStr (monitoredAddressParam j) with
    | none => rfl
    | some a => simp
  · rw [if_neg h]
    have hfold := foldl_collectMatches_eq (getAccountsFromPayload p) p jobs []
    rw [List.nil_append] at hfold
    exact hfold

theorem matchJob_mem {invol : List String} {p : Payload} {jobs : List Job}
    {qi : QueueInsert} (h : qi ∈ jobs.filterMap (matchJob invol p)) :
    ∃ j, j ∈ jobs ∧ qi.jobId = j.id ∧ qi.payload = p := by
  rcases List.mem_filterMap.mp h with ⟨j, hj, hm⟩
  unfold matchJob at hm
  cases ht : truthyStr (monitoredAddressParam j) with
  | none => rw [ht] at hm; cases hm
  | some a =>
    rw [ht] at hm
    dsimp only at hm
    by_cases hmem : a ∈ invol
    · rw [if_pos hmem] at hm
      injection hm with hm
      exact ⟨j, hj, by rw [← hm], by rw [← hm]⟩
    · rw [if_neg hmem] at hm
      cases hm

theorem matchJob_jobId {invol : List String} {p : Payload} {j0 : Job}
    {qi0 : QueueInsert} (h : matchJob invol p j0 = some qi0) :
    qi0.jobId = j0.id := by
  unfold matchJob at h
  cases ht : truthyStr (monitoredAddressParam j0) with
  | none => rw [ht] at h; cases h
  | some b =>
    rw [ht] at h
    dsimp only at h
    by_cases hb : b ∈ invol
    · rw [if_pos hb] at h
      injection h with h
      rw [← h]
    · rw [if_neg hb] at h
      cases h

theorem filterMap_matchJob_filter (p : Payload) (invol : List String) :
    ∀ (jobs : List Job) (j : Job) (a : String),
      (jobs.map Job.id).Nodup → j ∈ jobs →
      truthyStr (monitoredAddressParam j) = some a →
      (jobs.filterMap (matchJob invol p)).filter (fun qi => decide (qi.jobId = j.id)) =
        if a ∈ invol then [⟨j.id, p⟩] else [] := by
  intro jobs
  induction jobs with
  | nil => intro j a _ hj _; cases hj
  | cons j0 rest ih =>
    intro j a hnd hj ha
    rw [List.map_cons, List.nodup_cons] at hnd
    obtain ⟨hnotin, hndr⟩ := hnd
    rw [List.filterMap_cons]
    have hrest0 : ∀ b : Job, b ∈ rest → ¬ b.id = j0.id := by
      intro b hb hcontra
      exact hnotin (hcontra ▸ List.mem_map_of_mem Job.id hb)
    rcases List.mem_cons.mp hj with hj0 | hjr
    · subst hj0
      have hm : matchJob invol p j = if a ∈ invol then some ⟨j.id, p⟩ else none := by
        unfold matchJob
        rw [ha]
      have htail :
          (rest.filterMap (matchJob invol p)).filter
            (fun qi => decide (qi.jobId = j.id)) = [] := by
        rw [List.filter_eq_nil_iff]
        intro qi hqi
        rcases matchJob_mem hqi with ⟨j', hj', hid, -⟩
        simp only [hid]
        simpa using hrest0 j' hj'
      by_cases hmem : a ∈ invol
      · rw [hm, if_pos hmem, if_pos hmem]
        dsimp only
        simp only [List.filter_cons]
        simp [htail]
      · rw [hm, if_neg hmem, if_neg hmem]
        exact htail
    · have hji : j.id ∈ rest.map Job.id := List.mem_map_of_mem Job.id hjr
      have hneq : ¬ j0.id = j.id := fun hcontra => hrest0 j hjr hcontra.symm
      cases hm0 : matchJob invol p j0 with
      | none => exact ih j a hndr hjr ha
      | some qi0 =>
        have hq0 : qi0.jobId = j0.id := matchJob_jobId hm0
        dsimp only
        simp only [List.filter_cons]
        have hpred : decide (qi0.jobId = j.id) = false := by
          simp [hq0, hneq]
        simp only [hpred, Bool.false_eq_true, if_false]
        exact ih j a hndr hjr ha

/-- C4 evaluated at the failing input: a non-empty body that is not
parseable as JSON, with the active-job directory reachable and
non-empty. The handler's inner JSON-parse catch block is empty, so
`payloads` stays `[]` and the request completes with status 200 and
nothing enqueued — not the 400 the spec (and the code's own inline
`400 Bad Request` comment plus its outer SyntaxError-to-400 mapping)
prescribe. -/
theorem C4_malformed_json_answered_200 :
    handleWebhook GatewayBody.malformedOrEmpty (some [exJobM1]) true =
      ⟨200, []⟩ ∧
    ¬ (handleWebhook GatewayBody.malformedOrEmpty (some [exJobM1]) true).status = 400 := by
  decide

/-- Counterexample to C5 as stated: for a well-formed non-empty batch,
when the active-jobs fetch fails the handler throws and its outer catch
maps the (non-SyntaxError) error to HTTP 500, not the success status 200
the claim asserts. Nothing is enqueued. -/
theorem C5_counterexample_directory_failure :
    (handleWebhook (GatewayBody.events [exEventM1]) none true).status = 500 ∧
    ¬ (handleWebhook (GatewayBody.events [exEventM1]) none true).status = 200 ∧
    (handleWebhook (GatewayBody.events [exEventM1]) none true).queued = [] := by
  decide

/-- C5 amended: for every gateway request, if the fetch of the
active-jobs directory fails, the gateway responds with server-error
status 500 and enqueues no queue items for that batch. -/
theorem C5_directory_failure_500_nothing_queued :
    ∀ (body : GatewayBody) (insertOk : Bool),
      handleWebhook body none insertOk = ⟨500, []⟩ := by
  intro body insertOk
  rfl

/-- C6: matching is exactly membership of the monitored address in the
event's involved-accounts set. For an active-job directory with distinct
job ids, an event payload, and a job whose monitored address is the
non-empty string `a`, the matching loop creates exactly one queue item
referencing that job — carrying that event's raw payload — when `a` is
in the event's extracted involved-accounts set, and none otherwise. -/
theorem C6_matching_is_membership (jobs : List Job) (p : Payload) (j : Job) (a : String)
    (hnd : (jobs.map Job.id).Nodup) (hj : j ∈ jobs)
    (ha : truthyStr (monitoredAddressParam j) = some a) :
    (queueInsertsForEvent jobs p).filter (fun qi => decide (qi.jobId = j.id)) =
      if a ∈ getAccountsFromPayload p then [⟨j.id, p⟩] else [] := by
  rw [queueInsertsForEvent_eq]
  exact filterMap_matchJob_filter p (getAccountsFromPayload p) jobs j a hnd hj ha

/-- Witness for C6 at the spec's scenario: one event whose
`tokenTransfers` contain mint `"M1"`, one active MINT_ACTIVITY job
monitoring `"M1"` (exactly one queue item referencing it) and one active
job monitoring `"M2"` (no queue item). -/
theorem C6_matching_is_membership_witness :
    (queueInsertsForEvent [exJobM1, exJobM2] exEventM1).filter
        (fun qi => decide (qi.jobId = exJobM1.id)) = [⟨exJobM1.id, exEventM1⟩] ∧
    (queueInsertsForEvent [exJobM1, exJobM2] exEventM1).filter
        (fun qi => decide (qi.jobId = exJobM2.id)) = [] := by
  constructor
  · rw [C6_matching_is_membership [exJobM1, exJobM2] exEventM1 exJobM1 "M1"
      (by decide) (by decide) (by decide)]
    decide
  · rw [C6_matching_is_membership [exJobM1, exJobM2] exEventM1 exJobM2 "M2"
      (by decide) (by decide) (by decide)]
    decide

/-! Lemmas about the reconciler. -/

theorem mem_addAccount (acc : List String) (s x : String) :
    x ∈ addAccount acc s ↔ x ∈ acc ∨ x = s := by
  unfold addAccount
  by_cases h : s ∈ acc
  · rw [if_pos h]
    constructor
    · exact Or.inl
    · rintro (hx | rfl)
      · exact hx
      · exact h
  · rw [if_neg h]
    simp

theorem mem_foldl_addAccount (l : List String) :
    ∀ (acc : List String) (x : String),
      x ∈ l.foldl addAccount acc ↔ x ∈ acc ∨ x ∈ l := by
  induction l with
  | nil => intro acc x; simp
  | cons s l ih =>
    intro acc x
    rw [List.foldl_cons, ih, mem_addAccount]
    simp only [List.mem_cons]
    tauto

/-- Membership in the dedup applied by `editPlatformWebhook` is
membership in its argument. -/
theorem mem_dedup (l : List String) (x : String) : x ∈ dedup l ↔ x ∈ l := by
  unfold dedup
  rw [mem_foldl_addAccount]
  simp

/-- C7: deletion-side reconciliation preserves shared addresses. For a
job deletion whose derived monitored address is `a`, the external
subscription is edited (to the deduplicated address set required by the
remaining active jobs) exactly when `a` is not among the addresses
required by the remaining active jobs; otherwise the subscription list
is untouched. Hence deleting the only active job monitoring an address
pushes a list without that address, while deleting one of two active
jobs monitoring the same address leaves the subscription unchanged. -/
theorem C7_delete_preserves_shared_addresses
    (jobs : List Job) (jobToDelete : Job) (sub : List String) (a : String)
    (ha : deletedJobAddress jobToDelete = some a) :
    handleDeleteJob jobs jobToDelete sub true =
      (if a ∈ getAllActiveAddresses jobs (some jobToDelete.id) then
        ⟨none, sub, true⟩
      else
        ⟨some (getAllActiveAddresses jobs (some jobToDelete.id)),
         dedup (getAllActiveAddresses jobs (some jobToDelete.id)), true⟩) ∧
    ((handleDeleteJob jobs jobToDelete sub true).editCall.isSome ↔
      a ∉ getAllActiveAddresses jobs (some jobToDelete.id)) ∧
    (a ∉ getAllActiveAddresses jobs (some jobToDelete.id) →
      ∀ x, x ∈ (handleDeleteJob jobs jobToDelete sub true).sub ↔
        x ∈ getAllActiveAddresses jobs (some jobToDelete.id)) := by
  have hmain : handleDeleteJob jobs jobToDelete sub true =
      (if a ∈ getAllActiveAddresses jobs (some jobToDelete.id) then
        ⟨none, sub, true⟩
      else
        ⟨some (getAllActiveAddresses jobs (some jobToDelete.id)),
         dedup (getAllActiveAddresses jobs (some jobToDelete.id)), true⟩) := by
    simp only [handleDeleteJob]
    rw [ha]
    dsimp only
    by_cases hmem : a ∈ getAllActiveAddresses jobs (some jobToDelete.id)
    · rw [if_pos hmem, if_pos hmem]
    · rw [if_neg hmem, if_neg hmem]
      simp
  refine ⟨hmain, ?_, ?_⟩
  · rw [hmain]
    by_cases hmem : a ∈ getAllActiveAddresses jobs (some jobToDelete.id)
    · rw [if_pos hmem]
      simp [hmem]
    · rw [if_neg hmem]
      simp [hmem]
  · intro hmem x
    rw [hmain, if_neg hmem]
    exact mem_dedup _ x

/-- Witness for C7 at the spec's scenario: deleting the only active job
monitoring `"M3"` pushes an address list excluding `"M3"` (here empty),
while deleting one of two active jobs monitoring `"M3"` performs no edit
and leaves `"M3"` in the subscription. -/
theorem C7_delete_preserves_shared_addresses_witness :
    handleDeleteJob [exJobM3a] exJobM3a ["M3"] true = ⟨some [], [], true⟩ ∧
    handleDeleteJob [exJobM3a, exJobM3b] exJobM3a ["M3"] true = ⟨none, ["M3"], true⟩ := by
  constructor
  · rw [(C7_delete_preserves_shared_addresses [exJobM3a] exJobM3a ["M3"] "M3"
      (by decide)).1]
    decide
  · rw [(C7_delete_preserves_shared_addresses [exJobM3a, exJobM3b] exJobM3a ["M3"] "M3"
      (by decide)).1]
    decide

/-- C8: creation ordering and rollback. For a job-creation request with
a valid (non-blank) monitored address and a successful subscription
edit, the attempted external calls are, in order: first the webhook edit
carrying the union of all other active jobs' addresses plus the new
address, then the job-row insert; when the insert fails, a best-effort
rollback edit restoring the pre-update address list follows and the
persistence failure is propagated to the caller — independently of
whether the rollback edit itself succeeds (a rollback failure is only
logged). -/
theorem C8_create_edits_before_persist_with_rollback
    (jobs : List Job) (a0 : String) (insertOk rollbackOk : Bool)
    (ha : ¬ jsTrim a0 = "") :
    handleCreateJob jobs (some a0) true insertOk rollbackOk =
      (if insertOk then
        ([CreateEvent.editWebhook
            (addAccount (getAllActiveAddresses jobs none) (jsTrim a0)),
          CreateEvent.persistJob], CreateOutcome.created)
      else
        ([CreateEvent.editWebhook
            (addAccount (getAllActiveAddresses jobs none) (jsTrim a0)),
          CreateEvent.persistJob,
          CreateEvent.rollbackEdit (getAllActiveAddresses jobs none)],
         CreateOutcome.persistFailed)) := by
  have ha0 : ¬ a0 = "" := by
    intro h
    apply ha
    rw [h]
    decide
  simp only [handleCreateJob]
  rw [if_neg ha0, if_neg ha]
  cases insertOk <;> simp

/-- Witness for C8 at a concrete failing insert: with one other active
job monitoring `"M2"` and a new job for `"M3"`, the webhook is first
edited to `["M2", "M3"]`, the persist is attempted, and after its
failure a rollback edit restoring `["M2"]` is attempted and the failure
is propagated; the trace is the same whether the rollback succeeds or
fails. -/
theorem C8_create_edits_before_persist_with_rollback_witness :
    handleCreateJob [exJobM2] (some "M3") true false false =
      ([CreateEvent.editWebhook ["M2", "M3"], CreateEvent.persistJob,
        CreateEvent.rollbackEdit ["M2"]], CreateOutcome.persistFailed) ∧
    handleCreateJob [exJobM2] (some "M3") true false true =
      handleCreateJob [exJobM2] (some "M3") true false false := by
  constructor
  · rw [C8_create_edits_before_persist_with_rollback [exJobM2] "M3" false false (by decide)]
    decide
  · rw [C8_create_edits_before_persist_with_rollback [exJobM2] "M3" false true (by decide),
        C8_create_edits_before_persist_with_rollback [exJobM2] "M3" false false (by decide)]

/-- C9: moot items resolve as processed. When the referenced Job no
longer exists, or exists but is not active, the worker marks the claimed
item processed (not failed), executes no destination INSERT, leaves the
Job's status untouched, and — since the claim primitive selects only
pending rows — the item is never returned by any later claim call. -/
theorem C9_moot_items_processed (env : WorkerEnv) (item : QueueItemRec)
    (h : env.jobFetch = Except.ok [] ∨
         ∃ job, env.jobFetch = Except.ok [job] ∧ ¬ job.status = JobStatus.active) :
    (processQueueItem env item).updateStatus = QueueStatus.processed ∧
    (processQueueItem env item).insertExecuted = none ∧
    (processQueueItem env item).jobSetError = false ∧
    ∀ (q : List QueueItemRec) (t m n : Nat),
      item.id ∉
        ((claimRun m n
            (applyQueueUpdate q item.id (processQueueItem env item) t)).1.map
          QueueItemRec.id) := by
  have hout : (processQueueItem env item).updateStatus = QueueStatus.processed ∧
      (processQueueItem env item).insertExecuted = none ∧
      (processQueueItem env item).jobSetError = false := by
    rcases h with h | ⟨job, hjf, hst⟩
    · simp [processQueueItem, h]
    · simp [processQueueItem, hjf, hst]
  refine ⟨hout.1, hout.2.1, hout.2.2, ?_⟩
  intro q t m n
  apply applyQueueUpdate_never_reclaimed
  rw [hout.1]
  simp

/-- Witness for C9: a claimed item whose job fetch returns no rows, and
one whose job is paused, both resolve as processed with no write, and
the deleted-job item is not returned by later claim calls. -/
theorem C9_moot_items_processed_witness :
    (processQueueItem exMissingJobEnv exClaimed).updateStatus = QueueStatus.processed ∧
    (processQueueItem exMissingJobEnv exClaimed).insertExecuted = none ∧
    (processQueueItem exPausedEnv exClaimed).updateStatus = QueueStatus.processed ∧
    (processQueueItem exPausedEnv exClaimed).insertExecuted = none ∧
    exClaimed.id ∉
      ((claimRun 3 4
          (applyQueueUpdate [exClaimed] exClaimed.id
            (processQueueItem exMissingJobEnv exClaimed) 200)).1.map
        QueueItemRec.id) := by
  have h1 := C9_moot_items_processed exMissingJobEnv exClaimed (Or.inl rfl)
  have h2 := C9_moot_items_processed exPausedEnv exClaimed
    (Or.inr ⟨exPausedJob, rfl, by decide⟩)
  exact ⟨h1.1, h1.2.1, h2.1, h2.2.1, h1.2.2.2 [exClaimed] 200 3 4⟩

/-- C10: the PROGRAM_INTERACTIONS transform is a stub that always
returns no row, so for every claimed item whose resolved job has that
category the worker never executes a destination INSERT; and whenever
processing reaches the transform (job active, credential resolved, pool
validated) the item is marked processed with the Job untouched. -/
theorem C10_program_interactions_no_rows (env : WorkerEnv) (item : QueueItemRec)
    (job : Job) (cred : Credential) (cid : Nat)
    (hjf : env.jobFetch = Except.ok [job])
    (hcat : job.dataCategory = DataCategory.programInteractions) :
    transformProgramInteraction item.payload job.categoryParams = none ∧
    (processQueueItem env item).insertExecuted = none ∧
    (job.status = JobStatus.active → job.credentialId = some cid →
      env.credRow = some cred → env.poolConnect = Except.ok () →
      (processQueueItem env item).updateStatus = QueueStatus.processed ∧
      (processQueueItem env item).jobSetError = false) := by
  obtain ⟨jf, cr, pc, ie⟩ := env
  simp only at hjf
  subst hjf
  refine ⟨rfl, ?_, ?_⟩
  · by_cases hact : job.status = JobStatus.active
    · cases hcid2 : job.credentialId with
      | none => simp [processQueueItem, hact, hcid2, workerFail]
      | some c =>
        cases cr with
        | none => simp [processQueueItem, hact, hcid2]
        | some cr0 =>
          cases pc with
          | error m => simp [processQueueItem, hact, hcid2, workerFail]
          | ok u =>
            cases ie with
            | none =>
              simp [processQueueItem, hact, hcid2, hcat, workerFail,
                transformProgramInteraction]
            | some msg =>
              simp [processQueueItem, hact, hcid2, hcat, workerFail,
                transformProgramInteraction]
    · simp [processQueueItem, hact]
  · intro hact hcid hcr hpc
    simp only at hcr hpc
    subst hcr
    subst hpc
    simp [processQueueItem, hact, hcid, hcat, transformProgramInteraction]

/-- Witness for C10: a claimed item for an active PROGRAM_INTERACTIONS
job with working credential and pool is marked processed, with no
destination row executed. -/
theorem C10_program_interactions_no_rows_witness :
    transformProgramInteraction exClaimed.payload exPIJob.categoryParams = none ∧
    (processQueueItem exPIEnv exClaimed).insertExecuted = none ∧
    (processQueueItem exPIEnv exClaimed).updateStatus = QueueStatus.processed := by
  have h := C10_program_interactions_no_rows exPIEnv exClaimed exPIJob ⟨1⟩ 1 rfl rfl
  exact ⟨h.1, h.2.1, (h.2.2 (by decide) rfl rfl rfl).1⟩

end HeliusIndexer
